import Mathlib

/-!
Verification of the per-frame annotation state engine of the video
frame editor (`src/app/page.tsx`, `src/components/video-canvas.tsx`,
`src/types/drawing.tsx`).

The TypeScript component state and its handlers are shallowly embedded:
numbers used as coordinates are modelled as `Int` (clicks land on pixel
coordinates), playback time as `ℚ`, the `Map<number, FrameHistoryEntry>`
as a function `Nat → Option FrameHistoryEntry`, and `uuidv4()` as an
explicit fresh-id argument to every handler that generates an id.
A circle's radius, computed in the source as `Math.sqrt(dx^2+dy^2)`,
is represented by its square `radiusSq = dx^2+dy^2` (the map
`r ↦ r^2` is injective on nonnegative radii, so no information is
lost, and the source's guard `radius > 5` becomes `radiusSq > 25`).
-/

/-- `Point {x, y}` from `src/types/drawing.tsx`. -/
structure Point where
  x : Int
  y : Int
deriving DecidableEq, Repr

/-- The geometry payload of the `ShapeData` tagged union
(`src/types/drawing.tsx`): polygon / rectangle / circle variants. -/
inductive Geometry where
  | polygon (points : List Point) (isClosed : Bool)
  | rectangle (x y width height : Int)
  | circle (x y : Int) (radiusSq : Int)
deriving DecidableEq, Repr

/-- A completed shape: the common `id`, `label`, `color` fields of every
`ShapeData` variant plus its geometry. -/
structure Shape where
  id : String
  label : String
  color : String
  geom : Geometry
deriving DecidableEq, Repr

/-- An ordered shape list, the snapshot unit of the history
(`ShapeData[]` in the source). -/
abbrev ShapeSet := List Shape

/-- `FrameHistoryEntry` from `page.tsx`:
`{ history: ShapeData[][]; currentIndex: number }`. -/
structure FrameHistoryEntry where
  history : List ShapeSet
  currentIndex : Nat
deriving DecidableEq, Repr

/-- The `frameDrawingHistory` map, `Map<number, FrameHistoryEntry>`,
as a function from frame index to optional entry. -/
def FrameStore := Nat → Option FrameHistoryEntry

/-- `newMap.set(frame, e)` on the frame-history map. -/
def FrameStore.set (s : FrameStore) (f : Nat) (e : FrameHistoryEntry) : FrameStore :=
  fun g => if g = f then some e else s g

/-- The store of a freshly loaded video: `new Map()`. -/
def emptyStore : FrameStore := fun _ => none

/-- The default entry used when a frame has none:
`{ history: [[]], currentIndex: 0 }`. -/
def emptyEntry : FrameHistoryEntry := ⟨[[]], 0⟩

/-- `newMap.get(frame) || { history: [[]], currentIndex: 0 }`. -/
def entryOf (s : FrameStore) (f : Nat) : FrameHistoryEntry :=
  (s f).getD emptyEntry

/-- The materialised shape-set of a frame: `history[currentIndex]` of its
entry, or `[]` when the frame has no entry.  (The source always indexes
within bounds, which the invariant below guarantees; `getD` supplies the
same value wherever the source would read `history[currentIndex]`.) -/
def getCurrentShapes (s : FrameStore) (f : Nat) : ShapeSet :=
  match s f with
  | none => []
  | some e => e.history.getD e.currentIndex []

/-- `addFrameShapeSnapshot` (`page.tsx:752-775`): commit `shapes` to the
frame, truncating the redo tail (`history.slice(0, currentIndex+1)`),
pushing the new snapshot and moving `currentIndex` to the end. -/
def addFrameShapeSnapshot (s : FrameStore) (frame : Nat) (shapes : ShapeSet) : FrameStore :=
  let currentEntry := entryOf s frame
  let newHistory := currentEntry.history.take (currentEntry.currentIndex + 1) ++ [shapes]
  s.set frame ⟨newHistory, newHistory.length - 1⟩

/-- `handleUndoShapeAction` (`page.tsx:1379-1394`) restricted to its
effect on the frame-history map: decrement `currentIndex` when an entry
exists with `currentIndex > 0`, otherwise leave the map unchanged. -/
def handleUndoShapeAction (s : FrameStore) (frame : Nat) : FrameStore :=
  match s frame with
  | none => s
  | some e =>
    if 0 < e.currentIndex then s.set frame ⟨e.history, e.currentIndex - 1⟩ else s

/-- `handleRedoShapeAction` (`page.tsx:1396-1414`) restricted to its
effect on the frame-history map: increment `currentIndex` when an entry
exists with `currentIndex < history.length - 1`, otherwise leave the map
unchanged. -/
def handleRedoShapeAction (s : FrameStore) (frame : Nat) : FrameStore :=
  match s frame with
  | none => s
  | some e =>
    if e.currentIndex < e.history.length - 1 then
      s.set frame ⟨e.history, e.currentIndex + 1⟩
    else s

/-- The store effect of `handleClearDrawing` (`page.tsx:1416-1425`):
`addFrameShapeSnapshot([])`. -/
def clearDrawingStore (s : FrameStore) (frame : Nat) : FrameStore :=
  addFrameShapeSnapshot s frame []

/-- One iteration of the loop body of `pasteShapeToRemainingFrames`
(`page.tsx:1514-1532` forward, `1533-1552` backward): fetch or seed the
frame's entry, append `shapeCopy` to its active shape-set, truncate the
redo tail and push the new snapshot. -/
def propagateStep (shapeCopy : Shape) (s : FrameStore) (f : Nat) : FrameStore :=
  let frameEntry := entryOf s f
  let newShapes := frameEntry.history.getD frameEntry.currentIndex [] ++ [shapeCopy]
  let newHistory := frameEntry.history.take (frameEntry.currentIndex + 1) ++ [newShapes]
  s.set f ⟨newHistory, newHistory.length - 1⟩

/-- `pasteShapeToRemainingFrames` (`page.tsx:1504-1555`).  The source
draws ONE fresh id (`uuidv4()`) before the loop and reuses the same
`shapeCopy` object for every frame; `newId` is that single id.  Forward
direction iterates `f = currentFrameNumber+1 .. totalFrames-1`, backward
iterates `f = 0 .. currentFrameNumber-1`. -/
def pasteShapeToRemainingFrames (s : FrameStore) (copiedShapeData : Option Shape)
    (newId : String) (currentFrameNumber totalFrames : Nat) (forward : Bool) : FrameStore :=
  match copiedShapeData with
  | none => s
  | some c =>
    let shapeCopy : Shape := { c with id := newId }
    if forward then
      (List.range' (currentFrameNumber + 1) (totalFrames - (currentFrameNumber + 1))).foldl
        (propagateStep shapeCopy) s
    else
      (List.range currentFrameNumber).foldl (propagateStep shapeCopy) s

/-- `drawingTool` state: `"polygon" | "rectangle" | "circle"`. -/
inductive DrawingTool where
  | polygon
  | rectangle
  | circle
deriving DecidableEq, Repr

/-- `toolMode` state: `"draw" | "select"`. -/
inductive ToolMode where
  | draw
  | select
deriving DecidableEq, Repr

/-- The component state of `VideoFrameEditor` (`page.tsx:691-750`)
restricted to the fields the annotation engine reads and writes. -/
structure AppState where
  frameDrawingHistory : FrameStore
  currentFrameShapes : ShapeSet
  activePolygonPoints : List Point
  activePolygonHistory : List (List Point)
  activePolygonHistoryIndex : Nat
  tempShapeStartPoint : Option Point
  tempShapeCurrentPoint : Option Point
  selectedShapeId : Option String
  copiedShapeData : Option Shape
  currentFrameTime : ℚ
  videoDuration : ℚ
  fps : Nat
  isPlaying : Bool
  toolMode : ToolMode
  drawingTool : DrawingTool
  defaultShapeLabel : String
  defaultShapeColor : String

/-- `currentFrameNumber = Math.floor(currentFrameTime * FPS)`
(`page.tsx:748`). -/
def AppState.currentFrameNumber (st : AppState) : Nat :=
  (⌊st.currentFrameTime * st.fps⌋).toNat

/-- `totalFrames = Math.floor(videoDuration * FPS)` (`page.tsx:749`). -/
def AppState.totalFrames (st : AppState) : Nat :=
  (⌊st.videoDuration * st.fps⌋).toNat

/-- `saveCurrentFrameShapes` (`page.tsx:777-796`): snapshot the current
shapes, appending the in-progress polygon as an open (`isClosed: false`)
polygon when points are pending, and commit to the current frame.
`freshId` stands for the `uuidv4()` drawn for the open polygon. -/
def saveCurrentFrameShapes (st : AppState) (freshId : String) : AppState :=
  let shapesToSave :=
    st.currentFrameShapes ++
      (if st.activePolygonPoints.length > 0 then
        [⟨freshId, st.defaultShapeLabel, st.defaultShapeColor,
          .polygon st.activePolygonPoints false⟩]
      else [])
  { st with frameDrawingHistory :=
      addFrameShapeSnapshot st.frameDrawingHistory st.currentFrameNumber shapesToSave }

/-- The navigation core shared by `handleSliderChange`, `handleNextFrame`
and `handlePrevFrame` (`page.tsx:1104-1113`, `1126-1135`, `1148-1157`):
seed `{ history: [[]], currentIndex: 0 }` for the target frame when it
has no entry, and load that entry's active shape-set. -/
def loadFrameEntry (st : AppState) (newFrameNumber : Nat) : AppState :=
  match st.frameDrawingHistory newFrameNumber with
  | some frameEntry =>
    { st with currentFrameShapes := frameEntry.history.getD frameEntry.currentIndex [] }
  | none =>
    { st with
        frameDrawingHistory := st.frameDrawingHistory.set newFrameNumber ⟨[[]], 0⟩,
        currentFrameShapes := [] }

/-- `handleSliderChange` (`page.tsx:1096-1116`): when not playing, save
the departing frame's shapes, move the playhead to `newTime`, and
fetch-or-seed the entry of the frame at the new time. -/
def handleSliderChange (st : AppState) (newTime : ℚ) (freshId : String) : AppState :=
  if st.isPlaying then st
  else
    let st1 := saveCurrentFrameShapes st freshId
    let st2 := { st1 with currentFrameTime := newTime }
    loadFrameEntry st2 (⌊newTime * st.fps⌋).toNat

/-- `handleNextFrame` (`page.tsx:1118-1138`): advance the playhead by
one frame duration, clamped to the video duration, then fetch-or-seed
the entry of the new frame. -/
def handleNextFrame (st : AppState) (freshId : String) : AppState :=
  if st.isPlaying then st
  else
    let newTime := min st.videoDuration (st.currentFrameTime + 1 / st.fps)
    let st1 := saveCurrentFrameShapes st freshId
    let st2 := { st1 with currentFrameTime := newTime }
    loadFrameEntry st2 (⌊newTime * st.fps⌋).toNat

/-- `handleClosePolygon` (`page.tsx:1427-1446`): with at least three
pending points, build a `Polygon` with `isClosed: true` over a copy of
the points, append it to the frame's shapes, commit, and reset the
active-polygon builder; otherwise do nothing. -/
def handleClosePolygon (st : AppState) (freshId : String) : AppState :=
  if 3 ≤ st.activePolygonPoints.length then
    let closedPolygon : Shape :=
      ⟨freshId, st.defaultShapeLabel, st.defaultShapeColor,
        .polygon st.activePolygonPoints true⟩
    let updatedShapes := st.currentFrameShapes ++ [closedPolygon]
    { st with
        currentFrameShapes := updatedShapes,
        frameDrawingHistory :=
          addFrameShapeSnapshot st.frameDrawingHistory st.currentFrameNumber updatedShapes,
        activePolygonPoints := [],
        activePolygonHistory := [[]],
        activePolygonHistoryIndex := 0 }
  else st

/-- The shape-completion tail of `handleStageClick`
(`page.tsx:1218-1226`): append the new shape to the current frame's
shapes, commit, and clear the two-click temp state. -/
def commitNewShape (st : AppState) (newShape : Shape) : AppState :=
  let updatedShapes := st.currentFrameShapes ++ [newShape]
  { st with
      currentFrameShapes := updatedShapes,
      frameDrawingHistory :=
        addFrameShapeSnapshot st.frameDrawingHistory st.currentFrameNumber updatedShapes,
      tempShapeStartPoint := none,
      tempShapeCurrentPoint := none }

/-- `handleStageClick` (`page.tsx:1162-1234`).  `p` is the pointer
position, `freshId` the `uuidv4()` drawn when a shape is completed, and
`targetIsStage` models `e.target === e.target.getStage()` in the
select-mode branch.  In draw mode: the polygon tool pushes the point
onto the builder's snapshot history; the rectangle/circle tools record a
first click and, on the second click, construct and store the shape with
NO size threshold. -/
def handleStageClick (st : AppState) (p : Point) (freshId : String)
    (targetIsStage : Bool) : AppState :=
  if st.isPlaying then st
  else
    match st.toolMode with
    | .draw =>
      match st.drawingTool with
      | .polygon =>
        let newPoints := st.activePolygonPoints ++ [p]
        let newHistory :=
          st.activePolygonHistory.take (st.activePolygonHistoryIndex + 1) ++ [newPoints]
        { st with
            activePolygonHistory := newHistory,
            activePolygonHistoryIndex := newHistory.length - 1,
            activePolygonPoints := newPoints }
      | .rectangle =>
        match st.tempShapeStartPoint with
        | none => { st with tempShapeStartPoint := some p, tempShapeCurrentPoint := some p }
        | some q =>
          commitNewShape st
            ⟨freshId, st.defaultShapeLabel, st.defaultShapeColor,
              .rectangle (min q.x p.x) (min q.y p.y) |q.x - p.x| |q.y - p.y|⟩
      | .circle =>
        match st.tempShapeStartPoint with
        | none => { st with tempShapeStartPoint := some p, tempShapeCurrentPoint := some p }
        | some q =>
          commitNewShape st
            ⟨freshId, st.defaultShapeLabel, st.defaultShapeColor,
              .circle q.x q.y ((p.x - q.x) ^ 2 + (p.y - q.y) ^ 2)⟩
    | .select =>
      if targetIsStage then { st with selectedShapeId := none } else st

/-- The rectangle/circle completion branch of `handleMouseUp` in
`video-canvas.tsx:536-586`, as a function of the two drag endpoints:
the rectangle is kept only when `width > 5 && height > 5`, the circle
only when `radius > 5` (encoded as `radiusSq > 25`); otherwise no shape
is produced. -/
def mouseUpCompleteShape (tool : DrawingTool) (tempShapeStart tempShapeCurrent : Point)
    (freshId label color : String) : Option Shape :=
  match tool with
  | .polygon => none
  | .rectangle =>
    let width := |tempShapeStart.x - tempShapeCurrent.x|
    let height := |tempShapeStart.y - tempShapeCurrent.y|
    if 5 < width ∧ 5 < height then
      some ⟨freshId, label, color,
        .rectangle (min tempShapeStart.x tempShapeCurrent.x)
          (min tempShapeStart.y tempShapeCurrent.y) width height⟩
    else none
  | .circle =>
    let radiusSq :=
      (tempShapeCurrent.x - tempShapeStart.x) ^ 2 + (tempShapeCurrent.y - tempShapeStart.y) ^ 2
    if 25 < radiusSq then
      some ⟨freshId, label, color, .circle tempShapeStart.x tempShapeStart.y radiusSq⟩
    else none

/-- `handleDeleteShape` (`page.tsx:1557-1569`): when a shape is
selected, filter it out of the current shapes, commit, clear the
selection AND null out the copied-shape buffer. -/
def handleDeleteShape (st : AppState) : AppState :=
  match st.selectedShapeId with
  | none => st
  | some selectedId =>
    let updatedShapes := st.currentFrameShapes.filter (fun shape => shape.id ≠ selectedId)
    { st with
        currentFrameShapes := updatedShapes,
        frameDrawingHistory :=
          addFrameShapeSnapshot st.frameDrawingHistory st.currentFrameNumber updatedShapes,
        selectedShapeId := none,
        copiedShapeData := none }

/-- `handlePasteShape` (`page.tsx:1462-1502`): with a copied shape,
build a fresh-id copy offset by (10, 10), append it to the current
shapes, commit, and select it; with an empty buffer, do nothing. -/
def handlePasteShape (st : AppState) (freshId : String) : AppState :=
  match st.copiedShapeData with
  | none => st
  | some c =>
    let pastedShape : Shape :=
      match c.geom with
      | .polygon ps closed =>
        { c with id := freshId, geom := .polygon (ps.map (fun q => ⟨q.x + 10, q.y + 10⟩)) closed }
      | .rectangle x y w h => { c with id := freshId, geom := .rectangle (x + 10) (y + 10) w h }
      | .circle x y r => { c with id := freshId, geom := .circle (x + 10) (y + 10) r }
    let updatedShapes := st.currentFrameShapes ++ [pastedShape]
    { st with
        currentFrameShapes := updatedShapes,
        frameDrawingHistory :=
          addFrameShapeSnapshot st.frameDrawingHistory st.currentFrameNumber updatedShapes,
        selectedShapeId := some freshId }

/-- `pasteShapeToRemainingFrames` lifted to the component state: the
store sweep of `page.tsx:1504-1555` applied at the derived current
frame number and total frame count. -/
def pasteShapeToRemainingFramesApp (st : AppState) (newId : String) (forward : Bool) : AppState :=
  { st with frameDrawingHistory :=
      (pasteShapeToRemainingFrames st.frameDrawingHistory st.copiedShapeData newId
        st.currentFrameNumber st.totalFrames forward) }

/-- `handleFPSChange` (`page.tsx:1711-1718`): `parsed` is the result of
`parseInt` on the input (`none` for `NaN`) and `rawIsEmpty` whether the
raw input string was empty.  A positive parse sets `FPS`; an empty input
sets `FPS` to 0; anything else is ignored. -/
def handleFPSChange (st : AppState) (parsed : Option Int) (rawIsEmpty : Bool) : AppState :=
  match parsed with
  | some value =>
    if 0 < value then { st with fps := value.toNat }
    else if rawIsEmpty then { st with fps := 0 } else st
  | none => if rawIsEmpty then { st with fps := 0 } else st

/-- The truncated prefix `history.slice(0, currentIndex + 1)` that a
commit on frame `f` of store `s` keeps. -/
def keptPrefix (s : FrameStore) (f : Nat) : List ShapeSet :=
  (entryOf s f).history.take ((entryOf s f).currentIndex + 1)

/-- A sequence of commits `c1..cn` on frame `f`, each through
`addFrameShapeSnapshot`, with no intervening undo. -/
def commitMany (s : FrameStore) (f : Nat) (cs : List ShapeSet) : FrameStore :=
  cs.foldl (fun st c => addFrameShapeSnapshot st f c) s

/-- The invariant of a frame history entry: `currentIndex` is in bounds
(`0 ≤ currentIndex` holds by the `Nat` representation) and `history[0]`
is the empty shape-set. -/
def EntryWF (e : FrameHistoryEntry) : Prop :=
  e.currentIndex < e.history.length ∧ e.history.head? = some []

/-- Every entry present in the store satisfies the entry invariant. -/
def StoreWF (s : FrameStore) : Prop :=
  ∀ f e, s f = some e → EntryWF e

/-- The component state right after a video is loaded: empty store,
playhead at 0, the source's initial `FPS = 30`, polygon tool in draw
mode, nothing selected or copied (`page.tsx:691-750`). -/
def initialState : AppState where
  frameDrawingHistory := emptyStore
  currentFrameShapes := []
  activePolygonPoints := []
  activePolygonHistory := [[]]
  activePolygonHistoryIndex := 0
  tempShapeStartPoint := none
  tempShapeCurrentPoint := none
  selectedShapeId := none
  copiedShapeData := none
  currentFrameTime := 0
  videoDuration := 2
  fps := 30
  isPlaying := false
  toolMode := .draw
  drawingTool := .polygon
  defaultShapeLabel := "New Shape"
  defaultShapeColor := "#FF0000"

/-! ### Basic lemmas about the store operations -/

lemma FrameStore.set_self (s : FrameStore) (f : Nat) (e : FrameHistoryEntry) :
    (s.set f e) f = some e := by
  simp [FrameStore.set]

lemma FrameStore.set_other (s : FrameStore) (f g : Nat) (e : FrameHistoryEntry)
    (h : g ≠ f) : (s.set f e) g = s g := by
  simp [FrameStore.set, h]

lemma addFrameShapeSnapshot_at (s : FrameStore) (f : Nat) (sh : ShapeSet) :
    (addFrameShapeSnapshot s f sh) f = some ⟨keptPrefix s f ++ [sh], (keptPrefix s f).length⟩ := by
  simp [addFrameShapeSnapshot, keptPrefix, FrameStore.set_self]

lemma addFrameShapeSnapshot_at_other (s : FrameStore) (f g : Nat) (sh : ShapeSet)
    (h : g ≠ f) : (addFrameShapeSnapshot s f sh) g = s g := by
  simp [addFrameShapeSnapshot, FrameStore.set, h]

lemma keptPrefix_of_entry (s : FrameStore) (f : Nat) (H : List ShapeSet) (i : Nat)
    (h : s f = some ⟨H, i⟩) : keptPrefix s f = H.take (i + 1) := by
  simp [keptPrefix, entryOf, h]

lemma getCurrentShapes_addFrameShapeSnapshot (s : FrameStore) (f : Nat) (sh : ShapeSet) :
    getCurrentShapes (addFrameShapeSnapshot s f sh) f = sh := by
  rw [getCurrentShapes, addFrameShapeSnapshot_at]
  simp

lemma handleUndoShapeAction_none (s : FrameStore) (f : Nat) (h : s f = none) :
    handleUndoShapeAction s f = s := by
  simp [handleUndoShapeAction, h]

lemma handleRedoShapeAction_none (s : FrameStore) (f : Nat) (h : s f = none) :
    handleRedoShapeAction s f = s := by
  simp [handleRedoShapeAction, h]

lemma handleUndoShapeAction_at (s : FrameStore) (f : Nat) (H : List ShapeSet) (i : Nat)
    (hs : s f = some ⟨H, i⟩) (hi : 0 < i) :
    handleUndoShapeAction s f = s.set f ⟨H, i - 1⟩ := by
  simp [handleUndoShapeAction, hs, hi]

lemma handleRedoShapeAction_stuck (s : FrameStore) (f : Nat) (H : List ShapeSet) (i : Nat)
    (hs : s f = some ⟨H, i⟩) (hi : ¬ i < H.length - 1) :
    handleRedoShapeAction s f = s := by
  simp [handleRedoShapeAction, hs, hi]

lemma take_len_append (P l : List ShapeSet) (c : ShapeSet) (h : l = P ++ [c]) :
    l.take (P.length + 1) = P ++ [c] := by
  subst h
  have h2 : P.length + 1 = (P ++ [c]).length := by simp
  rw [h2, List.take_length]

lemma take_len_append2 (P : List ShapeSet) (c d : ShapeSet) :
    ((P ++ [c]) ++ [d]).take (P.length + 1) = P ++ [c] := by
  have h2 : P.length + 1 = (P ++ [c]).length := by simp
  rw [h2, List.take_left]

/-- C2: `addFrameShapeSnapshot` truncates the history to the prefix
ending at `currentIndex`, appends the new shape-set and moves
`currentIndex` to the last position; consequently for the sequence
commit `c1`, commit `c2`, undo, commit `c3` on one frame, a redo is a
no-op and the final history is the kept prefix followed by `c1, c3` —
the `c2` snapshot is unreachable. -/
theorem commit_truncates_and_undo_branch_discards_redo (s : FrameStore) (f : Nat)
    (c1 c2 c3 : ShapeSet) :
    (∀ sh : ShapeSet, (addFrameShapeSnapshot s f sh) f
        = some ⟨keptPrefix s f ++ [sh], (keptPrefix s f ++ [sh]).length - 1⟩)
  ∧ (handleRedoShapeAction (addFrameShapeSnapshot (handleUndoShapeAction
        (addFrameShapeSnapshot (addFrameShapeSnapshot s f c1) f c2) f) f c3) f
      = addFrameShapeSnapshot (handleUndoShapeAction
        (addFrameShapeSnapshot (addFrameShapeSnapshot s f c1) f c2) f) f c3)
  ∧ ((addFrameShapeSnapshot (handleUndoShapeAction
        (addFrameShapeSnapshot (addFrameShapeSnapshot s f c1) f c2) f) f c3) f
      = some ⟨keptPrefix s f ++ [c1, c3], (keptPrefix s f).length + 1⟩) := by
  set P := keptPrefix s f with hP
  have h1 : (addFrameShapeSnapshot s f c1) f = some ⟨P ++ [c1], P.length⟩ :=
    addFrameShapeSnapshot_at s f c1
  have hk1 : keptPrefix (addFrameShapeSnapshot s f c1) f = P ++ [c1] := by
    rw [keptPrefix_of_entry _ _ _ _ h1]
    exact take_len_append P _ c1 rfl
  have h2 : (addFrameShapeSnapshot (addFrameShapeSnapshot s f c1) f c2) f
      = some ⟨(P ++ [c1]) ++ [c2], P.length + 1⟩ := by
    rw [addFrameShapeSnapshot_at, hk1]
    simp
  have hu : handleUndoShapeAction (addFrameShapeSnapshot (addFrameShapeSnapshot s f c1) f c2) f
      = (addFrameShapeSnapshot (addFrameShapeSnapshot s f c1) f c2).set f
          ⟨(P ++ [c1]) ++ [c2], P.length⟩ := by
    have := handleUndoShapeAction_at _ f _ _ h2 (Nat.succ_pos _)
    simpa using this
  have huf : (handleUndoShapeAction (addFrameShapeSnapshot
      (addFrameShapeSnapshot s f c1) f c2) f) f = some ⟨(P ++ [c1]) ++ [c2], P.length⟩ := by
    rw [hu, FrameStore.set_self]
  have hku : keptPrefix (handleUndoShapeAction (addFrameShapeSnapshot
      (addFrameShapeSnapshot s f c1) f c2) f) f = P ++ [c1] := by
    rw [keptPrefix_of_entry _ _ _ _ huf, take_len_append2]
  have h3 : (addFrameShapeSnapshot (handleUndoShapeAction
      (addFrameShapeSnapshot (addFrameShapeSnapshot s f c1) f c2) f) f c3) f
      = some ⟨(P ++ [c1]) ++ [c3], P.length + 1⟩ := by
    rw [addFrameShapeSnapshot_at, hku]
    simp
  refine ⟨?_, ?_, ?_⟩
  · intro sh
    rw [addFrameShapeSnapshot_at]
    simp
  · refine handleRedoShapeAction_stuck _ f _ _ h3 ?_
    simp
  · rw [h3]
    simp

lemma handleUndoShapeAction_history (s : FrameStore) (f g : Nat) :
    ((handleUndoShapeAction s f) g).map FrameHistoryEntry.history
      = (s g).map FrameHistoryEntry.history := by
  rcases hsf : s f with _ | e
  · simp [handleUndoShapeAction, hsf]
  · by_cases hi : 0 < e.currentIndex
    · rw [handleUndoShapeAction_at s f e.history e.currentIndex (by rw [hsf]) hi]
      by_cases hg : g = f
      · subst hg
        rw [FrameStore.set_self, hsf]
        rfl
      · rw [FrameStore.set_other _ _ _ _ hg]
    · simp [handleUndoShapeAction, hsf, hi]

lemma handleRedoShapeAction_history (s : FrameStore) (f g : Nat) :
    ((handleRedoShapeAction s f) g).map FrameHistoryEntry.history
      = (s g).map FrameHistoryEntry.history := by
  rcases hsf : s f with _ | e
  · simp [handleRedoShapeAction, hsf]
  · by_cases hi : e.currentIndex < e.history.length - 1
    · by_cases hg : g = f
      · subst hg
        simp [handleRedoShapeAction, hsf, hi, FrameStore.set_self]
      · simp only [handleRedoShapeAction, hsf, if_pos hi]
        rw [FrameStore.set_other _ _ _ _ hg]
    · simp [handleRedoShapeAction, hsf, hi]

/-- C5: undo decrements `currentIndex` exactly when `currentIndex > 0`
and is a complete no-op otherwise; redo increments exactly when
`currentIndex < history.length - 1` and is a no-op otherwise; in all
cases (for every frame of the store) the history sequence itself is
left untouched. -/
theorem undo_redo_move_cursor_only (s : FrameStore) (f : Nat) :
    (∀ g, ((handleUndoShapeAction s f) g).map FrameHistoryEntry.history
        = (s g).map FrameHistoryEntry.history)
  ∧ (∀ g, ((handleRedoShapeAction s f) g).map FrameHistoryEntry.history
        = (s g).map FrameHistoryEntry.history)
  ∧ (∀ H i, s f = some ⟨H, i⟩ → 0 < i →
        (handleUndoShapeAction s f) f = some ⟨H, i - 1⟩)
  ∧ (∀ H, s f = some ⟨H, 0⟩ → handleUndoShapeAction s f = s)
  ∧ (s f = none → handleUndoShapeAction s f = s)
  ∧ (∀ H i, s f = some ⟨H, i⟩ → i < H.length - 1 →
        (handleRedoShapeAction s f) f = some ⟨H, i + 1⟩)
  ∧ (∀ H i, s f = some ⟨H, i⟩ → ¬ i < H.length - 1 → handleRedoShapeAction s f = s)
  ∧ (s f = none → handleRedoShapeAction s f = s) := by
  refine ⟨handleUndoShapeAction_history s f, handleRedoShapeAction_history s f,
    ?_, ?_, handleUndoShapeAction_none s f, ?_, ?_, handleRedoShapeAction_none s f⟩
  · intro H i hs hi
    rw [handleUndoShapeAction_at s f H i hs hi, FrameStore.set_self]
  · intro H hs
    simp [handleUndoShapeAction, hs]
  · intro H i hs hi
    simp only [handleRedoShapeAction, hs, if_pos hi]
    rw [FrameStore.set_self]
  · intro H i hs hi
    exact handleRedoShapeAction_stuck s f H i hs hi

/-- Witness for C5 at a concrete one-entry store: undo from index 1
moves the cursor to 0, a second undo is a no-op, redo from index 1
(already last) is a no-op. -/
theorem undo_redo_move_cursor_only_witness :
    (handleUndoShapeAction
        (FrameStore.set emptyStore 0 ⟨[[], [⟨"a", "l", "c", .circle 0 0 4⟩]], 1⟩) 0) 0
      = some ⟨[[], [⟨"a", "l", "c", .circle 0 0 4⟩]], 0⟩
  ∧ handleRedoShapeAction
        (FrameStore.set emptyStore 0 ⟨[[], [⟨"a", "l", "c", .circle 0 0 4⟩]], 1⟩) 0
      = FrameStore.set emptyStore 0 ⟨[[], [⟨"a", "l", "c", .circle 0 0 4⟩]], 1⟩ := by
  have h := undo_redo_move_cursor_only
    (FrameStore.set emptyStore 0 ⟨[[], [⟨"a", "l", "c", .circle 0 0 4⟩]], 1⟩) 0
  exact ⟨h.2.2.1 [[], [⟨"a", "l", "c", .circle 0 0 4⟩]] 1 rfl (by decide),
    h.2.2.2.2.2.2.1 [[], [⟨"a", "l", "c", .circle 0 0 4⟩]] 1 rfl (by decide)⟩

lemma addFrameShapeSnapshot_at_end (s : FrameStore) (f : Nat) (H : List ShapeSet)
    (sh : ShapeSet) (hs : s f = some ⟨H, H.length - 1⟩) (hne : H ≠ []) :
    (addFrameShapeSnapshot s f sh) f = some ⟨H ++ [sh], H.length⟩ := by
  have hk : keptPrefix s f = H := by
    rw [keptPrefix_of_entry _ _ _ _ hs]
    have : H.length - 1 + 1 = H.length :=
      Nat.succ_pred_eq_of_pos (List.length_pos.mpr hne)
    rw [this, List.take_length]
  rw [addFrameShapeSnapshot_at, hk]

lemma commitMany_at_end (f : Nat) (cs : List ShapeSet) :
    ∀ (s : FrameStore) (H : List ShapeSet),
      s f = some ⟨H, H.length - 1⟩ → H ≠ [] →
      (commitMany s f cs) f = some ⟨H ++ cs, (H ++ cs).length - 1⟩ := by
  induction cs with
  | nil => intro s H hs _; simpa using hs
  | cons c cs ih =>
    intro s H hs hne
    have h1 := addFrameShapeSnapshot_at_end s f H c hs hne
    have h2 : (addFrameShapeSnapshot s f c) f
        = some ⟨H ++ [c], (H ++ [c]).length - 1⟩ := by
      rw [h1]; simp
    have h3 := ih (addFrameShapeSnapshot s f c) (H ++ [c]) h2 (by simp)
    calc (commitMany s f (c :: cs)) f
        = (commitMany (addFrameShapeSnapshot s f c) f cs) f := rfl
      _ = some ⟨H ++ c :: cs, (H ++ c :: cs).length - 1⟩ := by
          rw [h3]; simp

lemma commitMany_from_any (s : FrameStore) (f : Nat) (c : ShapeSet) (cs : List ShapeSet) :
    (commitMany s f (c :: cs)) f
      = some ⟨keptPrefix s f ++ c :: cs, (keptPrefix s f ++ c :: cs).length - 1⟩ := by
  have h1 : (addFrameShapeSnapshot s f c) f
      = some ⟨keptPrefix s f ++ [c], (keptPrefix s f ++ [c]).length - 1⟩ := by
    rw [addFrameShapeSnapshot_at]; simp
  have h2 := commitMany_at_end f cs (addFrameShapeSnapshot s f c)
    (keptPrefix s f ++ [c]) h1 (by simp)
  calc (commitMany s f (c :: cs)) f
      = (commitMany (addFrameShapeSnapshot s f c) f cs) f := rfl
    _ = _ := by rw [h2]; simp

lemma undo_iterate (f : Nat) (k : Nat) :
    ∀ (s : FrameStore) (H : List ShapeSet) (m : Nat), s f = some ⟨H, m⟩ →
      (((fun st => handleUndoShapeAction st f)^[k]) s) f = some ⟨H, m - k⟩ := by
  induction k with
  | zero => intro s H m hs; simpa using hs
  | succ k ih =>
    intro s H m hs
    rw [Function.iterate_succ_apply]
    by_cases hm : 0 < m
    · have hu := handleUndoShapeAction_at s f H m hs hm
      have hsf : (handleUndoShapeAction s f) f = some ⟨H, m - 1⟩ := by
        rw [hu, FrameStore.set_self]
      have := ih (handleUndoShapeAction s f) H (m - 1) hsf
      rw [this]
      have : m - 1 - k = m - (k + 1) := by omega
      rw [this]
    · have hm0 : m = 0 := by omega
      subst hm0
      have hu : handleUndoShapeAction s f = s := by
        simp [handleUndoShapeAction, hs]
      rw [hu, ih s H 0 hs]
      simp

lemma redo_iterate (f : Nat) (k : Nat) :
    ∀ (s : FrameStore) (H : List ShapeSet) (m : Nat), s f = some ⟨H, m⟩ →
      m ≤ H.length - 1 →
      (((fun st => handleRedoShapeAction st f)^[k]) s) f
        = some ⟨H, min (m + k) (H.length - 1)⟩ := by
  induction k with
  | zero =>
    intro s H m hs hm
    have : min (m + 0) (H.length - 1) = m := by omega
    rw [this]; simpa using hs
  | succ k ih =>
    intro s H m hs hm
    rw [Function.iterate_succ_apply]
    by_cases hlt : m < H.length - 1
    · have hsf : (handleRedoShapeAction s f) f = some ⟨H, m + 1⟩ := by
        simp only [handleRedoShapeAction, hs, if_pos hlt]
        rw [FrameStore.set_self]
      have := ih (handleRedoShapeAction s f) H (m + 1) hsf (by omega)
      rw [this]
      have : m + 1 + k = m + (k + 1) := by omega
      rw [this]
    · have hr : handleRedoShapeAction s f = s :=
        handleRedoShapeAction_stuck s f H m hs hlt
      rw [hr, ih s H m hs hm]
      have : min (m + k) (H.length - 1) = min (m + (k + 1)) (H.length - 1) := by omega
      rw [this]

/-- C4: committing `c1..cn` on frame `f` (no intervening undo), then
undoing `n` times and redoing `n` times, leaves the frame's active
shape-set exactly equal to the shape-set committed last. -/
theorem undoN_redoN_returns_last_commit (s : FrameStore) (f : Nat) (cs : List ShapeSet)
    (h : cs ≠ []) :
    getCurrentShapes
      (((fun st => handleRedoShapeAction st f)^[cs.length])
        (((fun st => handleUndoShapeAction st f)^[cs.length]) (commitMany s f cs))) f
      = cs.getLast h := by
  rcases cs with _ | ⟨c, cs'⟩
  · exact absurd rfl h
  have h1 := commitMany_from_any s f c cs'
  have h2 := undo_iterate f (c :: cs').length _ _ _ h1
  have h3 := redo_iterate f (c :: cs').length _ _ _ h2 (by omega)
  have hlen : (keptPrefix s f ++ c :: cs').length
      = (keptPrefix s f).length + (cs'.length + 1) := by simp
  have hfinal : (((fun st => handleRedoShapeAction st f)^[(c :: cs').length])
      (((fun st => handleUndoShapeAction st f)^[(c :: cs').length])
        (commitMany s f (c :: cs')))) f
      = some ⟨keptPrefix s f ++ c :: cs', (keptPrefix s f ++ c :: cs').length - 1⟩ := by
    rw [h3]
    congr 2
    simp only [List.length_cons, hlen]
    omega
  simp only [getCurrentShapes, hfinal]
  have hbound : (keptPrefix s f).length ≤ (keptPrefix s f ++ c :: cs').length - 1 := by
    omega
  rw [List.getD_append_right _ _ _ _ hbound]
  have hcs : (keptPrefix s f ++ c :: cs').length - 1 - (keptPrefix s f).length
      = (c :: cs').length - 1 := by
    simp only [List.length_cons, hlen]; omega
  rw [hcs]
  have hlt : (c :: cs').length - 1 < (c :: cs').length := by simp
  rw [List.getD_eq_getElem _ _ hlt, List.getLast_eq_getElem]

/-- Witness for C4: three commits on frame 2, undone three times and
redone three times, end at the third committed shape-set. -/
theorem undoN_redoN_returns_last_commit_witness :
    getCurrentShapes
      (((fun st => handleRedoShapeAction st 2)^[3])
        (((fun st => handleUndoShapeAction st 2)^[3])
          (commitMany emptyStore 2
            [[⟨"a", "l", "c", .circle 0 0 1⟩], [], [⟨"b", "l", "c", .circle 0 0 9⟩]]))) 2
      = [⟨"b", "l", "c", .circle 0 0 9⟩] := by
  have h := undoN_redoN_returns_last_commit emptyStore 2
    [[⟨"a", "l", "c", .circle 0 0 1⟩], [], [⟨"b", "l", "c", .circle 0 0 9⟩]] (by decide)
  simpa using h

/-! ### The frame-history invariant -/

lemma entryWF_emptyEntry : EntryWF emptyEntry := by
  constructor <;> simp [emptyEntry]

lemma entryWF_entryOf (s : FrameStore) (hWF : StoreWF s) (f : Nat) :
    EntryWF (entryOf s f) := by
  unfold entryOf
  rcases hsf : s f with _ | e
  · simpa using entryWF_emptyEntry
  · simpa using hWF f e hsf

lemma entryWF_commit (e : FrameHistoryEntry) (he : EntryWF e) (sh : ShapeSet) :
    EntryWF ⟨e.history.take (e.currentIndex + 1) ++ [sh],
      (e.history.take (e.currentIndex + 1) ++ [sh]).length - 1⟩ := by
  obtain ⟨hi, hh⟩ := he
  rcases e with ⟨H, i⟩
  rcases H with _ | ⟨a, t⟩
  · simp at hi
  · simp only [List.head?_cons, Option.some.injEq] at hh
    subst hh
    constructor
    · simp
    · simp

lemma storeWF_addFrameShapeSnapshot (s : FrameStore) (hWF : StoreWF s)
    (f : Nat) (sh : ShapeSet) : StoreWF (addFrameShapeSnapshot s f sh) := by
  intro g e hg
  by_cases hgf : g = f
  · subst hgf
    rw [addFrameShapeSnapshot_at] at hg
    obtain rfl := Option.some.inj hg
    have h := entryWF_commit (entryOf s g) (entryWF_entryOf s hWF g) sh
    simpa [keptPrefix] using h
  · rw [addFrameShapeSnapshot_at_other _ _ _ _ hgf] at hg
    exact hWF g e hg

lemma storeWF_handleUndoShapeAction (s : FrameStore) (hWF : StoreWF s) (f : Nat) :
    StoreWF (handleUndoShapeAction s f) := by
  rcases hsf : s f with _ | e
  · rw [handleUndoShapeAction_none s f hsf]; exact hWF
  · by_cases hi : 0 < e.currentIndex
    · rw [handleUndoShapeAction_at s f e.history e.currentIndex (by rw [hsf]) hi]
      intro g e2 hg
      by_cases hgf : g = f
      · subst hgf
        rw [FrameStore.set_self] at hg
        obtain rfl := Option.some.inj hg
        obtain ⟨h1, h2⟩ := hWF g e hsf
        refine ⟨?_, h2⟩
        show e.currentIndex - 1 < e.history.length
        omega
      · rw [FrameStore.set_other _ _ _ _ hgf] at hg
        exact hWF g e2 hg
    · have : handleUndoShapeAction s f = s := by simp [handleUndoShapeAction, hsf, hi]
      rw [this]; exact hWF

lemma storeWF_handleRedoShapeAction (s : FrameStore) (hWF : StoreWF s) (f : Nat) :
    StoreWF (handleRedoShapeAction s f) := by
  rcases hsf : s f with _ | e
  · rw [handleRedoShapeAction_none s f hsf]; exact hWF
  · by_cases hi : e.currentIndex < e.history.length - 1
    · intro g e2 hg
      simp only [handleRedoShapeAction, hsf, if_pos hi] at hg
      by_cases hgf : g = f
      · subst hgf
        rw [FrameStore.set_self] at hg
        obtain rfl := Option.some.inj hg
        obtain ⟨h1, h2⟩ := hWF g e hsf
        refine ⟨?_, h2⟩
        show e.currentIndex + 1 < e.history.length
        omega
      · rw [FrameStore.set_other _ _ _ _ hgf] at hg
        exact hWF g e2 hg
    · rw [handleRedoShapeAction_stuck s f e.history e.currentIndex (by rw [hsf]) hi]
      exact hWF

lemma propagateStep_at (c : Shape) (s : FrameStore) (f : Nat) :
    (propagateStep c s f) f
      = some ⟨keptPrefix s f ++ [(entryOf s f).history.getD (entryOf s f).currentIndex [] ++ [c]],
          (keptPrefix s f).length⟩ := by
  simp [propagateStep, keptPrefix, FrameStore.set_self]

lemma propagateStep_at_other (c : Shape) (s : FrameStore) (f g : Nat) (h : g ≠ f) :
    (propagateStep c s f) g = s g := by
  simp [propagateStep, FrameStore.set, h]

lemma storeWF_propagateStep (c : Shape) (s : FrameStore) (hWF : StoreWF s) (f : Nat) :
    StoreWF (propagateStep c s f) := by
  intro g e hg
  by_cases hgf : g = f
  · subst hgf
    rw [propagateStep_at] at hg
    obtain rfl := Option.some.inj hg
    have := entryWF_commit (entryOf s g) (entryWF_entryOf s hWF g)
      ((entryOf s g).history.getD (entryOf s g).currentIndex [] ++ [c])
    obtain ⟨h1, h2⟩ := this
    exact ⟨by simp [keptPrefix], h2⟩
  · rw [propagateStep_at_other _ _ _ _ hgf] at hg
    exact hWF g e hg

lemma storeWF_foldl_propagateStep (c : Shape) (l : List Nat) :
    ∀ (s : FrameStore), StoreWF s → StoreWF (l.foldl (propagateStep c) s) := by
  induction l with
  | nil => intro s h; exact h
  | cons a l ih =>
    intro s h
    exact ih (propagateStep c s a) (storeWF_propagateStep c s h a)

lemma storeWF_pasteShapeToRemainingFrames (s : FrameStore) (hWF : StoreWF s)
    (copied : Option Shape) (newId : String) (cur total : Nat) (forward : Bool) :
    StoreWF (pasteShapeToRemainingFrames s copied newId cur total forward) := by
  rcases copied with _ | c
  · exact hWF
  · rcases forward with _ | _
    · exact storeWF_foldl_propagateStep _ _ s hWF
    · exact storeWF_foldl_propagateStep _ _ s hWF

/-- C7: every operation on the frame-history store — commit, undo,
redo, clear, and bulk propagation — preserves, for every frame entry,
`0 ≤ currentIndex < history.length` together with `history[0] = []`. -/
theorem store_ops_preserve_invariant (s : FrameStore) (hWF : StoreWF s) :
    (∀ f sh, StoreWF (addFrameShapeSnapshot s f sh))
  ∧ (∀ f, StoreWF (handleUndoShapeAction s f))
  ∧ (∀ f, StoreWF (handleRedoShapeAction s f))
  ∧ (∀ f, StoreWF (clearDrawingStore s f))
  ∧ (∀ copied newId cur total forward,
      StoreWF (pasteShapeToRemainingFrames s copied newId cur total forward)) :=
  ⟨fun f sh => storeWF_addFrameShapeSnapshot s hWF f sh,
   fun f => storeWF_handleUndoShapeAction s hWF f,
   fun f => storeWF_handleRedoShapeAction s hWF f,
   fun f => storeWF_addFrameShapeSnapshot s hWF f [],
   fun copied newId cur total forward =>
     storeWF_pasteShapeToRemainingFrames s hWF copied newId cur total forward⟩

/-- Witness for C7 at the empty store (whose well-formedness is
immediate): commit and forward propagation both yield well-formed
stores. -/
theorem store_ops_preserve_invariant_witness :
    StoreWF (addFrameShapeSnapshot emptyStore 0 [⟨"a", "l", "c", .circle 0 0 1⟩])
  ∧ StoreWF (pasteShapeToRemainingFrames emptyStore
      (some ⟨"a", "l", "c", .circle 0 0 1⟩) "b" 1 4 true) := by
  have h := store_ops_preserve_invariant emptyStore (fun f e hfe => nomatch hfe)
  exact ⟨h.1 0 [⟨"a", "l", "c", .circle 0 0 1⟩],
    h.2.2.2.2 (some ⟨"a", "l", "c", .circle 0 0 1⟩) "b" 1 4 true⟩

/-! ### Bulk temporal propagation -/

lemma getCurrentShapes_congr (s s' : FrameStore) (f : Nat) (h : s f = s' f) :
    getCurrentShapes s f = getCurrentShapes s' f := by
  unfold getCurrentShapes
  rw [h]

lemma getCurrentShapes_eq_entryOf (s : FrameStore) (f : Nat) :
    getCurrentShapes s f = (entryOf s f).history.getD (entryOf s f).currentIndex [] := by
  unfold getCurrentShapes entryOf
  rcases s f with _ | e <;> simp [emptyEntry]

lemma getCurrentShapes_propagateStep_self (c : Shape) (s : FrameStore) (f : Nat) :
    getCurrentShapes (propagateStep c s f) f = getCurrentShapes s f ++ [c] := by
  have h := propagateStep_at c s f
  rw [getCurrentShapes_eq_entryOf (propagateStep c s f) f, getCurrentShapes_eq_entryOf s f]
  rw [entryOf, h]
  simp only [Option.getD_some]
  rw [List.getD_append_right _ _ _ _ (le_refl _)]
  simp

lemma foldl_propagateStep_not_mem (c : Shape) (l : List Nat) :
    ∀ (s : FrameStore) (f : Nat), f ∉ l → (l.foldl (propagateStep c) s) f = s f := by
  induction l with
  | nil => intro s f _; rfl
  | cons a l ih =>
    intro s f hf
    have hfa : f ≠ a := fun h => hf (h ▸ List.mem_cons_self a l)
    have hfl : f ∉ l := fun h => hf (List.mem_cons_of_mem a h)
    calc (List.foldl (propagateStep c) s (a :: l)) f
        = (List.foldl (propagateStep c) (propagateStep c s a) l) f := rfl
      _ = (propagateStep c s a) f := ih (propagateStep c s a) f hfl
      _ = s f := propagateStep_at_other c s a f hfa

lemma foldl_propagateStep_mem_once (c : Shape) (l : List Nat) :
    ∀ (s : FrameStore) (f : Nat), l.Nodup → f ∈ l →
      getCurrentShapes (l.foldl (propagateStep c) s) f = getCurrentShapes s f ++ [c] := by
  induction l with
  | nil => intro s f _ hf; exact absurd hf (List.not_mem_nil f)
  | cons a l ih =>
    intro s f hnd hf
    have hnd2 := List.nodup_cons.mp hnd
    by_cases hfa : f = a
    · subst hfa
      have hnl : f ∉ l := hnd2.1
      calc getCurrentShapes (List.foldl (propagateStep c) s (f :: l)) f
          = getCurrentShapes (List.foldl (propagateStep c) (propagateStep c s f) l) f := rfl
        _ = getCurrentShapes (propagateStep c s f) f :=
            getCurrentShapes_congr _ _ f
              (foldl_propagateStep_not_mem c l (propagateStep c s f) f hnl)
        _ = getCurrentShapes s f ++ [c] := getCurrentShapes_propagateStep_self c s f
    · have hfl : f ∈ l := by
        rcases List.mem_cons.mp hf with h | h
        · exact absurd h hfa
        · exact h
      calc getCurrentShapes (List.foldl (propagateStep c) s (a :: l)) f
          = getCurrentShapes (List.foldl (propagateStep c) (propagateStep c s a) l) f := rfl
        _ = getCurrentShapes (propagateStep c s a) f ++ [c] :=
            ih (propagateStep c s a) f hnd2.2 hfl
        _ = getCurrentShapes s f ++ [c] := by
            rw [getCurrentShapes_congr _ s f (propagateStep_at_other c s a f hfa)]

/-- C1 (amended): forward propagation of a non-null copied shape from
`fromFrame` with `totalFrames` appends, to each frame strictly between
them, one additional shape with the copied shape's label, color and
geometry whose id is the single freshly generated id — distinct from
the copied shape's id whenever the generated id is fresh, but SHARED by
all frames of the range rather than distinct per frame. -/
theorem propagate_forward_appends_shared_fresh_id (s : FrameStore) (c : Shape)
    (newId : String) (cur total f : Nat) (h1 : cur < f) (h2 : f < total)
    (hid : newId ≠ c.id) :
    getCurrentShapes (pasteShapeToRemainingFrames s (some c) newId cur total true) f
      = getCurrentShapes s f ++ [{ c with id := newId }]
  ∧ ({ c with id := newId } : Shape).id ≠ c.id := by
  constructor
  · have hmem : f ∈ List.range' (cur + 1) (total - (cur + 1)) := by
      rw [List.mem_range'_1]
      omega
    have hnd : (List.range' (cur + 1) (total - (cur + 1))).Nodup :=
      List.nodup_range' _ _
    calc getCurrentShapes (pasteShapeToRemainingFrames s (some c) newId cur total true) f
        = getCurrentShapes
            ((List.range' (cur + 1) (total - (cur + 1))).foldl
              (propagateStep { c with id := newId }) s) f := rfl
      _ = getCurrentShapes s f ++ [{ c with id := newId }] :=
          foldl_propagateStep_mem_once _ _ s f hnd hmem
  · simpa using hid

/-- Witness for the amended C1: propagating a rectangle forward from
frame 5 of 8 appends its fresh-id copy to frame 6. -/
theorem propagate_forward_appends_shared_fresh_id_witness :
    getCurrentShapes (pasteShapeToRemainingFrames emptyStore
        (some ⟨"orig", "l", "c", .rectangle 1 2 3 4⟩) "fresh" 5 8 true) 6
      = [⟨"fresh", "l", "c", .rectangle 1 2 3 4⟩] := by
  have h := propagate_forward_appends_shared_fresh_id emptyStore
    ⟨"orig", "l", "c", .rectangle 1 2 3 4⟩ "fresh" 5 8 6 (by decide) (by decide) (by decide)
  simpa [getCurrentShapes, emptyStore] using h.1

/-- C1 counterexample: `pasteShapeToRemainingFrames` draws a single
`uuidv4()` before its loop, so propagating forward from frame 5 with
`totalFrames = 8` gives frames 6 and 7 copies carrying the SAME id
`"fresh"` — the ids handed to distinct frames of the range are not
distinct from each other, contrary to the claim. -/
theorem propagate_forward_shares_one_id_counterexample :
    ((getCurrentShapes (pasteShapeToRemainingFrames emptyStore
        (some ⟨"orig", "l", "c", .rectangle 1 2 3 4⟩) "fresh" 5 8 true) 6).map Shape.id
      = ["fresh"])
  ∧ ((getCurrentShapes (pasteShapeToRemainingFrames emptyStore
        (some ⟨"orig", "l", "c", .rectangle 1 2 3 4⟩) "fresh" 5 8 true) 7).map Shape.id
      = ["fresh"]) := by
  constructor <;> rfl

/-! ### Navigation and the store -/

/-- C3 counterexample: from the freshly loaded state, merely scrubbing
the slider to `t = 1` s (frame 30, never written) creates a frame-30
entry seeded `{history: [[]], currentIndex: 0}` AND commits an empty
snapshot to the departed frame 0 — reads/navigation do mutate the
store. -/
theorem scrub_to_unvisited_frame_mutates_store :
    (handleSliderChange initialState 1 "wip").frameDrawingHistory 30 = some ⟨[[]], 0⟩
  ∧ (handleSliderChange initialState 1 "wip").frameDrawingHistory 0 = some ⟨[[], []], 1⟩
  ∧ initialState.frameDrawingHistory 30 = none := by
  refine ⟨?_, ?_, rfl⟩ <;>
    norm_num [handleSliderChange, saveCurrentFrameShapes, loadFrameEntry, initialState,
      AppState.currentFrameNumber, addFrameShapeSnapshot, entryOf, emptyStore,
      emptyEntry, FrameStore.set, Int.toNat_ofNat] <;> decide

/-- C3 (amended): navigation is eager, not lazy — scrubbing to a frame
with no history entry (distinct from the departed frame) installs the
seed entry `{history: [[]], currentIndex: 0}` for it, so the Frame
History Store grows on mere navigation. -/
theorem slider_navigation_creates_seed_entry (st : AppState) (newTime : ℚ)
    (freshId : String) (hplay : st.isPlaying = false)
    (hne : (⌊newTime * st.fps⌋).toNat ≠ st.currentFrameNumber)
    (hnone : st.frameDrawingHistory ((⌊newTime * st.fps⌋).toNat) = none) :
    (handleSliderChange st newTime freshId).frameDrawingHistory
      ((⌊newTime * st.fps⌋).toNat) = some ⟨[[]], 0⟩ := by
  have hsave : (saveCurrentFrameShapes st freshId).frameDrawingHistory
      ((⌊newTime * st.fps⌋).toNat) = none := by
    unfold saveCurrentFrameShapes
    simp only
    rw [addFrameShapeSnapshot_at_other _ _ _ _ hne]
    exact hnone
  unfold handleSliderChange
  rw [hplay]
  simp only [Bool.false_eq_true, if_false]
  unfold loadFrameEntry
  simp only [hsave, FrameStore.set_self]

/-- Witness for the amended C3 at the loaded state: scrubbing to `t = 1`
creates the seed entry for frame 30. -/
theorem slider_navigation_creates_seed_entry_witness :
    (handleSliderChange initialState 1 "wip2").frameDrawingHistory
      ((⌊1 * (initialState.fps : ℚ)⌋).toNat) = some ⟨[[]], 0⟩ :=
  slider_navigation_creates_seed_entry initialState 1 "wip2" rfl
    (by norm_num [initialState, AppState.currentFrameNumber]) rfl

/-! ### Closing the active polygon -/

/-- C6: closing the active polygon with fewer than three points is a
rejected no-op leaving the whole component state unchanged; with three
or more points it appends a polygon with `isClosed = true` over a copy
of the active point list, commits the new shape-set to the current
frame, and resets the active-polygon builder. -/
theorem close_polygon_requires_three_points (st : AppState) (freshId : String) :
    (st.activePolygonPoints.length < 3 → handleClosePolygon st freshId = st)
  ∧ (3 ≤ st.activePolygonPoints.length →
      handleClosePolygon st freshId = { st with
        currentFrameShapes := st.currentFrameShapes ++
          [⟨freshId, st.defaultShapeLabel, st.defaultShapeColor,
            .polygon st.activePolygonPoints true⟩],
        frameDrawingHistory := addFrameShapeSnapshot st.frameDrawingHistory
          st.currentFrameNumber (st.currentFrameShapes ++
            [⟨freshId, st.defaultShapeLabel, st.defaultShapeColor,
              .polygon st.activePolygonPoints true⟩]),
        activePolygonPoints := [],
        activePolygonHistory := [[]],
        activePolygonHistoryIndex := 0 }) := by
  constructor
  · intro h
    unfold handleClosePolygon
    rw [if_neg (by omega)]
  · intro h
    unfold handleClosePolygon
    rw [if_pos h]

/-- Witness for C6: closing with two points changes nothing; closing
with three points stores the closed polygon. -/
theorem close_polygon_requires_three_points_witness :
    handleClosePolygon { initialState with activePolygonPoints := [⟨0, 0⟩, ⟨10, 0⟩] } "p2"
      = { initialState with activePolygonPoints := [⟨0, 0⟩, ⟨10, 0⟩] }
  ∧ (handleClosePolygon { initialState with
        activePolygonPoints := [⟨0, 0⟩, ⟨10, 0⟩, ⟨10, 10⟩] } "p3").currentFrameShapes
      = [⟨"p3", "New Shape", "#FF0000", .polygon [⟨0, 0⟩, ⟨10, 0⟩, ⟨10, 10⟩] true⟩] := by
  have h2 := (close_polygon_requires_three_points
    { initialState with activePolygonPoints := [⟨0, 0⟩, ⟨10, 0⟩] } "p2").1 (by decide)
  have h3 := (close_polygon_requires_three_points
    { initialState with activePolygonPoints := [⟨0, 0⟩, ⟨10, 0⟩, ⟨10, 10⟩] } "p3").2 (by decide)
  exact ⟨h2, by rw [h3]; simp [initialState]⟩

/-! ### Degenerate rectangle / circle construction -/

/-- C8 counterexample: in the two-click path (`handleStageClick`), a
double-click at the same point `(5,5)` with the rectangle tool
constructs a `width = 0`, `height = 0` rectangle and stores it — both
in `currentFrameShapes` and committed into the frame history — with no
minimum-size threshold. -/
theorem stage_click_stores_degenerate_rectangle :
    (handleStageClick (handleStageClick { initialState with drawingTool := .rectangle }
        ⟨5, 5⟩ "i1" true) ⟨5, 5⟩ "i2" true).currentFrameShapes
      = [⟨"i2", "New Shape", "#FF0000", .rectangle 5 5 0 0⟩]
  ∧ getCurrentShapes (handleStageClick (handleStageClick { initialState with
        drawingTool := .rectangle } ⟨5, 5⟩ "i1" true) ⟨5, 5⟩ "i2" true).frameDrawingHistory 0
      = [⟨"i2", "New Shape", "#FF0000", .rectangle 5 5 0 0⟩] := by
  constructor <;>
    norm_num [handleStageClick, commitNewShape, initialState, AppState.currentFrameNumber,
      getCurrentShapes, addFrameShapeSnapshot, entryOf, emptyStore, emptyEntry,
      FrameStore.set, Int.toNat_ofNat]

/-- C8 (amended): rejection of degenerate geometry depends on the
construction path.  The drag path (`handleMouseUp` in
`video-canvas.tsx`) rejects a rectangle whose width or height is below
the threshold 5 and a circle whose radius is at most 5 (squared: 25),
storing nothing; the two-click path (`handleStageClick` in `page.tsx`)
applies no threshold and stores the constructed shape — degenerate or
not — in the frame's shape-set. -/
theorem degenerate_shape_rejection_depends_on_path
    (q p : Point) (freshId label color : String) (st : AppState)
    (hrect : |q.x - p.x| ≤ 5 ∨ |q.y - p.y| ≤ 5)
    (hcirc : (p.x - q.x) ^ 2 + (p.y - q.y) ^ 2 ≤ 25) :
    mouseUpCompleteShape .rectangle q p freshId label color = none
  ∧ mouseUpCompleteShape .circle q p freshId label color = none
  ∧ (st.isPlaying = false → st.toolMode = .draw → st.drawingTool = .rectangle →
      st.tempShapeStartPoint = some q →
      (handleStageClick st p freshId true).currentFrameShapes
        = st.currentFrameShapes ++
          [⟨freshId, st.defaultShapeLabel, st.defaultShapeColor,
            .rectangle (min q.x p.x) (min q.y p.y) |q.x - p.x| |q.y - p.y|⟩]) := by
  refine ⟨?_, ?_, ?_⟩
  · have hn : ¬ (5 < |q.x - p.x| ∧ 5 < |q.y - p.y|) := by omega
    simp only [mouseUpCompleteShape, if_neg hn]
  · have hn : ¬ 25 < (p.x - q.x) ^ 2 + (p.y - q.y) ^ 2 := by omega
    simp only [mouseUpCompleteShape, if_neg hn]
  · intro hplay htool hdraw htemp
    unfold handleStageClick
    rw [hplay, htool, hdraw, htemp]
    simp [commitNewShape]

/-- Witness for the amended C8: the drag completion at two identical
points produces nothing, while the click completion at the same two
identical points stores a zero-sized rectangle. -/
theorem degenerate_shape_rejection_depends_on_path_witness :
    mouseUpCompleteShape .rectangle ⟨5, 5⟩ ⟨5, 5⟩ "i" "l" "c" = none
  ∧ mouseUpCompleteShape .circle ⟨5, 5⟩ ⟨5, 5⟩ "i" "l" "c" = none
  ∧ (handleStageClick { initialState with
        drawingTool := .rectangle
        tempShapeStartPoint := some ⟨5, 5⟩ } ⟨5, 5⟩ "i" true).currentFrameShapes
      = [⟨"i", "New Shape", "#FF0000", .rectangle 5 5 0 0⟩] := by
  have h := degenerate_shape_rejection_depends_on_path ⟨5, 5⟩ ⟨5, 5⟩ "i" "l" "c"
    { initialState with
        drawingTool := .rectangle
        tempShapeStartPoint := some ⟨5, 5⟩ }
    (by norm_num) (by norm_num)
  refine ⟨h.1, h.2.1, ?_⟩
  have h3 := h.2.2 rfl rfl rfl rfl
  rw [h3]
  norm_num [initialState]

/-! ### FPS change and the derived frame mapping -/

/-- C9: changing the FPS leaves the frame-history store — hence every
stored frame's entry and its active shape-set — and the materialized
current shapes untouched; only the derived mapping
`frame = ⌊time * fps⌋` changes for subsequent lookups. -/
theorem fps_change_preserves_store (st : AppState) (parsed : Option Int)
    (rawIsEmpty : Bool) :
    (handleFPSChange st parsed rawIsEmpty).frameDrawingHistory = st.frameDrawingHistory
  ∧ (handleFPSChange st parsed rawIsEmpty).currentFrameShapes = st.currentFrameShapes
  ∧ (∀ g, getCurrentShapes (handleFPSChange st parsed rawIsEmpty).frameDrawingHistory g
        = getCurrentShapes st.frameDrawingHistory g)
  ∧ (∀ v : Int, 0 < v → parsed = some v →
      (handleFPSChange st parsed rawIsEmpty).currentFrameNumber
        = (⌊st.currentFrameTime * (v.toNat : ℚ)⌋).toNat) := by
  have hflds : (handleFPSChange st parsed rawIsEmpty).frameDrawingHistory
        = st.frameDrawingHistory
      ∧ (handleFPSChange st parsed rawIsEmpty).currentFrameShapes
        = st.currentFrameShapes := by
    rcases parsed with _ | v <;> simp only [handleFPSChange]
    · by_cases hre : rawIsEmpty = true
      · rw [if_pos hre]; exact ⟨rfl, rfl⟩
      · rw [if_neg hre]; exact ⟨rfl, rfl⟩
    · by_cases hv : 0 < v
      · rw [if_pos hv]; exact ⟨rfl, rfl⟩
      · rw [if_neg hv]
        by_cases hre : rawIsEmpty = true
        · rw [if_pos hre]; exact ⟨rfl, rfl⟩
        · rw [if_neg hre]; exact ⟨rfl, rfl⟩
  refine ⟨hflds.1, hflds.2, ?_, ?_⟩
  · intro g
    rw [hflds.1]
  · intro v hv hp
    subst hp
    simp [handleFPSChange, if_pos hv, AppState.currentFrameNumber]

/-- Witness for C9: setting FPS to 60 in the loaded state leaves the
store untouched and remaps the playhead (t = 0) to frame 0. -/
theorem fps_change_preserves_store_witness :
    (handleFPSChange initialState (some 60) false).frameDrawingHistory
      = initialState.frameDrawingHistory
  ∧ (handleFPSChange initialState (some 60) false).currentFrameNumber = 0 := by
  have h := fps_change_preserves_store initialState (some 60) false
  refine ⟨h.1, ?_⟩
  rw [h.2.2.2 60 (by norm_num) rfl]
  norm_num [initialState]

/-! ### Deleting the selected shape and the copy buffer -/

/-- C10: deleting the selected shape filters it out of the current
frame's shape-set, commits the result, clears the selection, and ALSO
empties the copied-shape buffer — so after any delete, paste and bulk
propagation (either direction) are no-ops even if a shape had been
copied beforehand. -/
theorem delete_clears_copy_buffer (st : AppState) (sid : String)
    (hsel : st.selectedShapeId = some sid) :
    (handleDeleteShape st).currentFrameShapes
      = st.currentFrameShapes.filter (fun shape => shape.id ≠ sid)
  ∧ (handleDeleteShape st).frameDrawingHistory
      = addFrameShapeSnapshot st.frameDrawingHistory st.currentFrameNumber
          (st.currentFrameShapes.filter (fun shape => shape.id ≠ sid))
  ∧ (handleDeleteShape st).selectedShapeId = none
  ∧ (handleDeleteShape st).copiedShapeData = none
  ∧ (∀ freshId, handlePasteShape (handleDeleteShape st) freshId = handleDeleteShape st)
  ∧ (∀ newId forward, pasteShapeToRemainingFramesApp (handleDeleteShape st) newId forward
        = handleDeleteShape st) := by
  refine ⟨?_, ?_, ?_, ?_, ?_, ?_⟩ <;>
    simp [handleDeleteShape, hsel, handlePasteShape, pasteShapeToRemainingFramesApp,
      pasteShapeToRemainingFrames]

/-- Witness for C10: deleting the selected circle empties the frame's
shapes and the copy buffer, after which paste is a no-op. -/
theorem delete_clears_copy_buffer_witness :
    (handleDeleteShape { initialState with
        currentFrameShapes := [⟨"s1", "l", "c", .circle 0 0 4⟩]
        selectedShapeId := some "s1"
        copiedShapeData := some ⟨"s1", "l", "c", .circle 0 0 4⟩ }).currentFrameShapes = []
  ∧ (handleDeleteShape { initialState with
        currentFrameShapes := [⟨"s1", "l", "c", .circle 0 0 4⟩]
        selectedShapeId := some "s1"
        copiedShapeData := some ⟨"s1", "l", "c", .circle 0 0 4⟩ }).copiedShapeData = none
  ∧ handlePasteShape (handleDeleteShape { initialState with
        currentFrameShapes := [⟨"s1", "l", "c", .circle 0 0 4⟩]
        selectedShapeId := some "s1"
        copiedShapeData := some ⟨"s1", "l", "c", .circle 0 0 4⟩ }) "n"
      = handleDeleteShape { initialState with
        currentFrameShapes := [⟨"s1", "l", "c", .circle 0 0 4⟩]
        selectedShapeId := some "s1"
        copiedShapeData := some ⟨"s1", "l", "c", .circle 0 0 4⟩ } := by
  have h := delete_clears_copy_buffer { initialState with
        currentFrameShapes := [⟨"s1", "l", "c", .circle 0 0 4⟩]
        selectedShapeId := some "s1"
        copiedShapeData := some ⟨"s1", "l", "c", .circle 0 0 4⟩ } "s1" rfl
  refine ⟨?_, h.2.2.2.1, h.2.2.2.2.1 "n"⟩
  rw [h.1]
  rfl


